import Mathlib

/-!
Verification of the tabular converter `Formater.py`.

The program reads a tab-delimited text file (decoded as latin-1 with
replacement, which never fails), and writes one of three outputs chosen by a
command-line flag: CSV (`csv.reader` + `csv.writer`), JSON (`csv.DictReader`
+ `json.dump`), or XML (`csv.DictReader` + `xml.etree.ElementTree`).

The embedding below models the program at the level of decoded input lines
(strings without newline characters), and separately models the byte-level
latin-1 decode.  The `csv` module's behaviour relevant to this program is
embedded as follows:

* a line is split on the tab character into fields; an empty line yields the
  empty record `[]` (this is what `csv.reader` produces for a blank line).
  The `csv` module additionally processes the default quote character on
  input: a line containing `"` can parse differently (a quoted field may even
  span lines), so per-line tab splitting coincides with the real reader
  exactly on lines free of the quote character.  That domain is made explicit
  by the `noSpecialChars`/`plainLine` predicates, and every theorem about a
  converter's output carries it as a hypothesis;
* the `csv` module aborts with `_csv.Error` as soon as a single field exceeds
  `csv.field_size_limit()` (131072 characters; a field of exactly 131072 is
  accepted, 131073 raises).  The run model checks this limit and, on
  violation, reports the crash: exit status 1, nothing printed, and no output
  file for `-j`/`-x` (the error strikes while reading, before their output
  file is opened), but a partial `output.csv` for `-c` (its output file is
  opened together with the input, and all rows before the oversized one have
  been written);
* `csv.DictReader` takes the first record as the field names, skips empty
  records (`while row == []`), and turns each record into a Python dict by
  `dict(zip(fieldnames, row))`, then stores the extra values under the
  rest key `None` when the record is longer than the header, and fills the
  missing field names with the rest value `None` when it is shorter;
* Python dicts preserve insertion order; assigning to an existing key updates
  it in place, assigning to a fresh key appends it;
* `ElementTree.write` raises `TypeError` (`write() argument must be str`)
  when it reaches an element whose text is a (non-empty) list — exactly the
  elements built from a `DictReader` rest key — leaving a truncated
  `output.xml` and a nonzero exit; an element whose text is `None` is written
  as an empty element without error.  `xmlWriteOk` captures this, and the
  run model routes the `-x` branch through it.
-/

namespace Formater

/-- A Python value as it appears in the row dictionaries produced by
`csv.DictReader`: a field string, `None` (the default `restval`), or the list
of extra field strings stored under the `restkey`. -/
inductive PyVal where
  | str (s : String)
  | null
  | strlist (l : List String)
deriving DecidableEq, Repr

/-- A Python dict with `Option String` keys (`Option.none` is the
`DictReader` rest key `None`), as an insertion-ordered association list. -/
abbrev PyDict := List (Option String × PyVal)

/-- Key membership test of a Python dict. -/
def pyHasKey : PyDict → Option String → Bool
  | [], _ => false
  | (k', _) :: d, k => k' = k || pyHasKey d k

/-- Lookup in a Python dict. -/
def pyLookup : PyDict → Option String → Option PyVal
  | [], _ => Option.none
  | (k', v) :: d, k => if k' = k then some v else pyLookup d k

/-- Replace the value at key `k` (a Python dict holds each key at most once),
keeping the entry's position. -/
def pyUpdateKey : PyDict → Option String → PyVal → PyDict
  | [], _, _ => []
  | (k', v') :: d, k, v =>
    if k' = k then (k, v) :: pyUpdateKey d k v
    else (k', v') :: pyUpdateKey d k v

/-- Python dict assignment `d[k] = v`: update in place when the key exists
(the key keeps its position), append otherwise. -/
def pyDictInsert (d : PyDict) (k : Option String) (v : PyVal) : PyDict :=
  if pyHasKey d k then pyUpdateKey d k v else d ++ [(k, v)]

/-- Assign each (field name, field value) pair in order, as
`dict(zip(fieldnames, row))` does. -/
def dictUpdatePairs (d : PyDict) (ps : List (String × String)) : PyDict :=
  ps.foldl (fun d kv => pyDictInsert d (some kv.1) (PyVal.str kv.2)) d

/-- Assign `d[key] = None` for each key in order, as `DictReader.__next__`
does for the field names beyond the end of a short record. -/
def dictFillNull (d : PyDict) (ks : List String) : PyDict :=
  ks.foldl (fun d k => pyDictInsert d (some k) PyVal.null) d

/-- The row dictionary `csv.DictReader.__next__` builds from the field names
and one record: `d = dict(zip(fieldnames, row))`, then
`d[None] = row[lf:]` when the record is longer than the header, and
`d[key] = None` for `key in fieldnames[lr:]` when it is shorter. -/
def dictOfRow (fieldnames row : List String) : PyDict :=
  let d := dictUpdatePairs [] (List.zip fieldnames row)
  if fieldnames.length < row.length then
    pyDictInsert d Option.none (PyVal.strlist (row.drop fieldnames.length))
  else if row.length < fieldnames.length then
    dictFillNull d (fieldnames.drop row.length)
  else d

/-- Split a character list on the tab character, keeping empty fields. -/
def splitFieldsAux : List Char → List Char → List String
  | [], acc => [String.mk acc.reverse]
  | c :: rest, acc =>
    if c = '\t' then String.mk acc.reverse :: splitFieldsAux rest []
    else splitFieldsAux rest (c :: acc)

/-- Split one decoded input line into its record of fields.  The tab is a
literal separator; a blank line is the empty record `[]`, exactly as
`csv.reader` yields `[]` for a blank line.  This coincides with the real
reader exactly on lines free of the CSV quote character `"`; the theorems
restrict to that domain through `noSpecialChars`/`plainLine` hypotheses. -/
def parseLine (s : String) : List String :=
  if s = "" then [] else splitFieldsAux s.data []

/-- The stream of row dictionaries `csv.DictReader` yields on the input
lines: the first record gives the field names, empty records are skipped
(`while row == []: row = next(self.reader)`), every other record becomes a
dictionary. -/
def dictReaderRows (lines : List String) : List PyDict :=
  match lines with
  | [] => []
  | header :: rest =>
    (((rest.map parseLine).filter (fun r => r ≠ [])).map
      (dictOfRow (parseLine header)))

/-- Does the CSV writer need to quote this field?  The default dialect
(`QUOTE_MINIMAL`) quotes a field containing the delimiter, the quote
character, or a line-terminator character. -/
def needsQuote (f : String) : Bool :=
  f.data.any (fun c => c == ',' || c == '"' || c == '\r' || c == '\n')

/-- Double every quote character, the CSV escaping rule. -/
def escapeQuotes : List Char → List Char
  | [] => []
  | '"' :: rest => '"' :: '"' :: escapeQuotes rest
  | c :: rest => c :: escapeQuotes rest

/-- One field as written by `csv.writer` (embedded quotes doubled, the field
wrapped in quotes when it needs quoting). -/
def csvQuote (f : String) : String :=
  if needsQuote f then String.mk ('"' :: (escapeQuotes f.data ++ ['"'])) else f

/-- One record as one comma-separated output line of `csv.writer`.  A record
holding a single empty field is written as a quoted empty field `""`, the
writer's disambiguation from an empty row. -/
def writeRow (r : List String) : String :=
  if r = [""] then "\"\"" else String.intercalate "," (r.map csvQuote)

/-- `convert_to_csv`, as the list of output lines: every input line, the
header included, is parsed into a record and written back as one CSV line. -/
def convert_to_csv (lines : List String) : List String :=
  lines.map (fun l => writeRow (parseLine l))

/-- `convert_to_json`, as the JSON array it serializes: the list of row
dictionaries produced by `csv.DictReader`. -/
def convert_to_json (lines : List String) : List PyDict :=
  dictReaderRows lines

/-- An `xml.etree.ElementTree` element: a tag (which is `None` for an element
created from the `DictReader` rest key), a text value (`None` when never
assigned), and child elements. -/
inductive XNode where
  | elem (tag : Option String) (text : PyVal) (children : List XNode)
deriving Repr

/-- Tag of an element. -/
def XNode.tag : XNode → Option String
  | .elem t _ _ => t

/-- Text of an element. -/
def XNode.text : XNode → PyVal
  | .elem _ t _ => t

/-- Children of an element. -/
def XNode.children : XNode → List XNode
  | .elem _ _ c => c

/-- The `item` element built for one row dictionary: one child element per
dict entry, tagged with the key, with the value as its text. -/
def itemOfDict (d : PyDict) : XNode :=
  XNode.elem (some "item") PyVal.null
    (d.map (fun kv => XNode.elem kv.1 kv.2 []))

/-- `convert_to_xml`, as the element tree it builds: a `root` element with
one `item` child per `DictReader` row. -/
def convert_to_xml (lines : List String) : XNode :=
  XNode.elem (some "root") PyVal.null ((dictReaderRows lines).map itemOfDict)

/-- `csv.field_size_limit()`: the largest accepted field length; a field one
character longer raises `_csv.Error` while reading. -/
def fieldSizeLimit : Nat := 131072

/-- The line is free of the CSV quote character (so the real reader parses
it by literal tab splitting) and of newline characters (which a line
produced by the text-mode decoder can never contain). -/
def noSpecialChars (s : String) : Bool :=
  s.data.all (fun c => !(c == '"' || c == '\n' || c == '\r'))

/-- Every field of the line is within `csv.field_size_limit()`; reading a
line violating this raises `_csv.Error` in all three converters. -/
def lineFieldsOk (s : String) : Bool :=
  (parseLine s).all (fun f => f.length ≤ fieldSizeLimit)

/-- The domain on which the per-line embedding is exact: no quote character,
no newline characters, and all fields within the csv field-size limit. -/
def plainLine (s : String) : Bool :=
  noSpecialChars s && lineFieldsOk s

/-- Does writing this text value raise `TypeError` inside
`ElementTree.write`?  A non-empty list does (`write() argument must be str,
not list`); a string is written escaped, `None` and the empty list are
falsy and skipped. -/
def textWriteFails : PyVal → Bool
  | PyVal.strlist (_ :: _) => true
  | _ => false

mutual

/-- Does `ElementTree.write` serialize this element without raising? -/
def xmlWriteOk : XNode → Bool
  | XNode.elem _ t children => !textWriteFails t && xmlWriteOkList children

/-- Does `ElementTree.write` serialize every element of the list without
raising? -/
def xmlWriteOkList : List XNode → Bool
  | [] => true
  | x :: xs => xmlWriteOk x && xmlWriteOkList xs

end

/-- Decoding a single byte under latin-1 (`encoding='latin-1'`): every byte
value 0–255 maps to the character of the same code point, so the decoder has
no failing case; a general byte decoder is `Option`-valued. -/
def decodeByteLatin1 (b : Nat) : Option Char :=
  if b < 256 then some (Char.ofNat b) else Option.none

/-- Decoding a byte string under latin-1. -/
def decodeLatin1 (bytes : List Nat) : Option (List Char) :=
  bytes.mapM decodeByteLatin1

/-- Universal-newline splitting of the decoded character stream, as Python
text mode does when iterating the file: `\r\n`, `\r` and `\n` all end a line,
and a final line without a terminator is still yielded. -/
def splitLinesAux : List Char → List Char → List String
  | [], acc => if acc = [] then [] else [String.mk acc.reverse]
  | '\r' :: '\n' :: rest, acc => String.mk acc.reverse :: splitLinesAux rest []
  | '\r' :: rest, acc => String.mk acc.reverse :: splitLinesAux rest []
  | '\n' :: rest, acc => String.mk acc.reverse :: splitLinesAux rest []
  | c :: rest, acc => splitLinesAux rest (c :: acc)

/-- Lines of a decoded character stream. -/
def splitLines (cs : List Char) : List String :=
  splitLinesAux cs []

/-- From input bytes to input lines: latin-1 decode, then line splitting. -/
def decodeToLines (bytes : List Nat) : Option (List String) :=
  (decodeLatin1 bytes).map splitLines

/-- The usage message printed on a wrong argument count. -/
def usageMsg : String :=
  "Usage: python script.py <input_file> <-c|-j|-x>"

/-- The error message printed on an unrecognized flag. -/
def invalidFlagMsg : String :=
  "Invalid format flag. Use -c for CSV, -j for JSON, or -x for XML."

/-- The data written to the single output file.  `csv` also represents the
partial `output.csv` left behind when reading aborts mid-loop (the lines
written before the oversized field); `xmlTruncated` is the truncated
`output.xml` left behind when `tree.write` raises `TypeError` on a rest-key
element. -/
inductive OutputData where
  | csv (lines : List String)
  | json (arr : List PyDict)
  | xml (tree : XNode)
  | xmlTruncated
deriving Repr

/-- Observable result of one program run: exit status, lines printed to
standard output, and the output file written (name and data), if any. -/
structure RunResult where
  exitCode : Nat
  stdout : List String
  written : Option (String × OutputData)
deriving Repr

/-- `main`: `argv` is the full `sys.argv` (program name first, so exactly two
positional arguments means `argv.length = 3`); `input` is the decoded line
list of the input file.  Wrong argument count prints the usage message and
exits 1; an unrecognized flag prints the error message and exits 1; a valid
flag converts.  An oversized field (`lineFieldsOk` false somewhere) raises
`_csv.Error` while reading: exit 1, nothing printed, no output file for
`-j`/`-x` (their output file is opened only after reading), but the partial
`output.csv` of the rows already copied for `-c` (its output file is opened
together with the input).  Under `-x`, a rest-key element makes `tree.write`
raise `TypeError` after `output.xml` was opened: exit 1, truncated file. -/
def main (argv : List String) (input : List String) : RunResult :=
  if argv.length ≠ 3 then
    ⟨1, [usageMsg], Option.none⟩
  else if argv.getD 2 "" = "-c" then
    if input.all lineFieldsOk then
      ⟨0, ["Conversion complete. Output saved to output.csv"],
        some ("output.csv", OutputData.csv (convert_to_csv input))⟩
    else
      ⟨1, [], some ("output.csv",
        OutputData.csv (convert_to_csv (input.takeWhile lineFieldsOk)))⟩
  else if argv.getD 2 "" = "-j" then
    if input.all lineFieldsOk then
      ⟨0, ["Conversion complete. Output saved to output.json"],
        some ("output.json", OutputData.json (convert_to_json input))⟩
    else ⟨1, [], Option.none⟩
  else if argv.getD 2 "" = "-x" then
    if input.all lineFieldsOk then
      if xmlWriteOk (convert_to_xml input) then
        ⟨0, ["Conversion complete. Output saved to output.xml"],
          some ("output.xml", OutputData.xml (convert_to_xml input))⟩
      else ⟨1, [], some ("output.xml", OutputData.xmlTruncated)⟩
    else ⟨1, [], Option.none⟩
  else
    ⟨1, [invalidFlagMsg], Option.none⟩

/-- One whole run from the raw input bytes: decode, then dispatch. -/
def runProgram (argv : List String) (inputBytes : List Nat) : Option RunResult :=
  (decodeToLines inputBytes).map (main argv)

/-! Lemmas about the Python dict operations. -/

theorem pyLookup_pyUpdateKey_self (d : PyDict) (k : Option String) (v : PyVal)
    (h : pyHasKey d k = true) :
    pyLookup (pyUpdateKey d k v) k = some v := by
  induction d with
  | nil => simp [pyHasKey] at h
  | cons p d ih =>
    obtain ⟨a, b⟩ := p
    by_cases ha : a = k
    · subst ha; simp [pyUpdateKey, pyLookup]
    · simp only [pyHasKey, Bool.or_eq_true, decide_eq_true_eq] at h
      rcases h with h | h
      · exact absurd h ha
      · simp [pyUpdateKey, pyLookup, ha, ih h]

theorem pyLookup_pyUpdateKey_ne (d : PyDict) (k k' : Option String) (v : PyVal)
    (h : k ≠ k') :
    pyLookup (pyUpdateKey d k v) k' = pyLookup d k' := by
  induction d with
  | nil => rfl
  | cons p d ih =>
    obtain ⟨a, b⟩ := p
    by_cases ha : a = k
    · subst ha; simp [pyUpdateKey, pyLookup, h, ih]
    · simp [pyUpdateKey, pyLookup, ha, ih]

theorem pyLookup_append (d₁ d₂ : PyDict) (k : Option String)
    (h : pyHasKey d₁ k = false) :
    pyLookup (d₁ ++ d₂) k = pyLookup d₂ k := by
  induction d₁ with
  | nil => rfl
  | cons p d ih =>
    obtain ⟨a, b⟩ := p
    simp only [pyHasKey, Bool.or_eq_false_iff, decide_eq_false_iff_not] at h
    simp [pyLookup, h.1, ih h.2]

theorem pyLookup_append_ne (d₁ : PyDict) (k k' : Option String) (v : PyVal)
    (h : k ≠ k') :
    pyLookup (d₁ ++ [(k, v)]) k' = pyLookup d₁ k' := by
  induction d₁ with
  | nil => simp [pyLookup, h]
  | cons p d ih =>
    obtain ⟨a, b⟩ := p
    by_cases ha : a = k'
    · simp [pyLookup, ha]
    · simp [pyLookup, ha, ih]

theorem pyLookup_insert_self (d : PyDict) (k : Option String) (v : PyVal) :
    pyLookup (pyDictInsert d k v) k = some v := by
  unfold pyDictInsert
  by_cases h : pyHasKey d k
  · rw [if_pos h]; exact pyLookup_pyUpdateKey_self d k v h
  · rw [if_neg h, pyLookup_append d _ k (by simpa using h)]
    simp [pyLookup]

theorem pyLookup_insert_ne (d : PyDict) (k k' : Option String) (v : PyVal)
    (h : k ≠ k') :
    pyLookup (pyDictInsert d k v) k' = pyLookup d k' := by
  unfold pyDictInsert
  by_cases hk : pyHasKey d k
  · rw [if_pos hk]; exact pyLookup_pyUpdateKey_ne d k k' v h
  · rw [if_neg hk]; exact pyLookup_append_ne d k k' v h

theorem pyLookup_dictUpdatePairs_not_mem (d : PyDict)
    (ps : List (String × String)) (k : Option String)
    (h : ∀ p ∈ ps, some p.1 ≠ k) :
    pyLookup (dictUpdatePairs d ps) k = pyLookup d k := by
  induction ps generalizing d with
  | nil => rfl
  | cons q ps ih =>
    show pyLookup (dictUpdatePairs (pyDictInsert d (some q.1) (PyVal.str q.2)) ps) k = _
    rw [ih _ fun p hp => h p (List.mem_cons_of_mem _ hp),
      pyLookup_insert_ne _ _ _ _ (h q (List.mem_cons_self _ _))]

theorem pyLookup_dictFillNull_not_mem (d : PyDict) (ks : List String)
    (k : Option String) (h : ∀ a ∈ ks, some a ≠ k) :
    pyLookup (dictFillNull d ks) k = pyLookup d k := by
  induction ks generalizing d with
  | nil => rfl
  | cons b ks ih =>
    show pyLookup (dictFillNull (pyDictInsert d (some b) PyVal.null) ks) k = _
    rw [ih _ fun a ha => h a (List.mem_cons_of_mem _ ha),
      pyLookup_insert_ne _ _ _ _ (h b (List.mem_cons_self _ _))]

theorem pyLookup_dictFillNull_mem (d : PyDict) (ks : List String) (a : String)
    (h : a ∈ ks) :
    pyLookup (dictFillNull d ks) (some a) = some PyVal.null := by
  induction ks generalizing d with
  | nil => simp at h
  | cons b ks ih =>
    show pyLookup (dictFillNull (pyDictInsert d (some b) PyVal.null) ks) (some a) = _
    by_cases hmem : a ∈ ks
    · exact ih _ hmem
    · have hab : a = b := by
        rcases List.mem_cons.mp h with h' | h'
        · exact h'
        · exact absurd h' hmem
      subst hab
      have hne : ∀ x ∈ ks, some x ≠ (some a : Option String) := by
        intro x hx hxa
        injection hxa with hxa'
        exact hmem (hxa' ▸ hx)
      rw [pyLookup_dictFillNull_not_mem _ _ _ hne]
      exact pyLookup_insert_self _ _ _

theorem decodeLatin1_total : ∀ bytes : List Nat, (∀ b ∈ bytes, b < 256) →
    ∃ cs, decodeLatin1 bytes = some cs ∧ cs.length = bytes.length := by
  intro bytes
  induction bytes with
  | nil => exact fun _ => ⟨[], rfl, rfl⟩
  | cons b bs ih =>
    intro hb
    obtain ⟨cs, hcs, hlen⟩ := ih fun x hx => hb x (List.mem_cons_of_mem _ hx)
    have hb0 : b < 256 := hb b (List.mem_cons_self _ _)
    refine ⟨Char.ofNat b :: cs, ?_, by simp [hlen]⟩
    unfold decodeLatin1 at hcs ⊢
    rw [List.mapM_cons, hcs]
    simp [decodeByteLatin1, hb0]

theorem string_mk_data (s : String) : String.mk s.data = s := rfl

theorem string_mk_ne_empty (c : Char) (l : List Char) :
    String.mk (c :: l) ≠ "" := fun h =>
  List.cons_ne_nil c l (congrArg String.data h)

theorem decodeLatin1_replicate (n b : Nat) (hb : b < 256) :
    decodeLatin1 (List.replicate n b)
      = some (List.replicate n (Char.ofNat b)) := by
  induction n with
  | zero => rfl
  | succ n ih =>
    rw [List.replicate_succ, List.replicate_succ]
    unfold decodeLatin1 at ih ⊢
    rw [List.mapM_cons, ih]
    simp [decodeByteLatin1, hb]

theorem splitFieldsAux_no_tab (cs : List Char) :
    ∀ acc : List Char, (∀ c ∈ cs, c ≠ '\t') →
      splitFieldsAux cs acc = [String.mk (acc.reverse ++ cs)] := by
  induction cs with
  | nil => intro acc _; simp [splitFieldsAux]
  | cons c cs ih =>
    intro acc h
    simp only [splitFieldsAux]
    rw [if_neg (h c (List.mem_cons_self _ _)),
      ih (c :: acc) (fun x hx => h x (List.mem_cons_of_mem _ hx))]
    simp

theorem parseLine_no_tab (s : String) (hne : s ≠ "")
    (h : ∀ c ∈ s.data, c ≠ '\t') : parseLine s = [s] := by
  unfold parseLine
  rw [if_neg hne, splitFieldsAux_no_tab s.data [] h]
  simp [string_mk_data]

theorem splitLinesAux_no_newline (cs : List Char) :
    ∀ acc : List Char, (∀ c ∈ cs, ¬(c = '\r' ∨ c = '\n')) →
      splitLinesAux cs acc
        = if acc = [] ∧ cs = [] then []
          else [String.mk (acc.reverse ++ cs)] := by
  induction cs with
  | nil =>
    intro acc _
    by_cases hacc : acc = []
    · subst hacc; simp [splitLinesAux]
    · simp [splitLinesAux, hacc]
  | cons c cs ih =>
    intro acc h
    have hc := h c (List.mem_cons_self _ _)
    rw [splitLinesAux.eq_def]
    split
    · simp_all
    · simp_all
    · simp_all
    · simp_all
    · rename_i acc' a2 a3 c' rest' hno1 hno2 hno3 heq
      rw [List.cons.injEq] at heq
      obtain ⟨rfl, rfl⟩ := heq
      rw [ih (c :: acc') (fun x hx => h x (List.mem_cons_of_mem _ hx))]
      simp

theorem splitLines_no_newline (cs : List Char) (hne : cs ≠ [])
    (h : ∀ c ∈ cs, ¬(c = '\r' ∨ c = '\n')) :
    splitLines cs = [String.mk cs] := by
  unfold splitLines
  rw [splitLinesAux_no_newline cs [] h]
  simp [hne]

theorem plainLine_fieldsOk (s : String) (h : plainLine s = true) :
    lineFieldsOk s = true := by
  unfold plainLine at h
  rw [Bool.and_eq_true] at h
  exact h.2

theorem all_plainLine_fieldsOk (input : List String)
    (h : input.all plainLine = true) : input.all lineFieldsOk = true := by
  rw [List.all_eq_true] at h ⊢
  exact fun l hl => plainLine_fieldsOk l (h l hl)

theorem two_fieldsOk (a b : String) (ha : plainLine a = true)
    (hb : plainLine b = true) :
    ([a, b] : List String).all lineFieldsOk = true := by
  simp [List.all_cons, plainLine_fieldsOk a ha, plainLine_fieldsOk b hb]

theorem pyLookup_mem (d : PyDict) (k : Option String) (v : PyVal)
    (h : pyLookup d k = some v) : (k, v) ∈ d := by
  induction d with
  | nil => simp [pyLookup] at h
  | cons p d ih =>
    obtain ⟨a, b⟩ := p
    by_cases ha : a = k
    · subst ha
      simp only [pyLookup, if_pos rfl] at h
      injection h with h'
      subst h'
      exact List.mem_cons_self _ _
    · simp only [pyLookup, if_neg ha] at h
      exact List.mem_cons_of_mem _ (ih h)

theorem xmlWriteOkList_false_of_mem (xs : List XNode) (x : XNode)
    (hx : x ∈ xs) (hfail : xmlWriteOk x = false) :
    xmlWriteOkList xs = false := by
  induction xs with
  | nil => simp at hx
  | cons y ys ih =>
    rcases List.mem_cons.mp hx with rfl | h'
    · simp [xmlWriteOkList, hfail]
    · simp [xmlWriteOkList, ih h']

theorem main_run_c (input : List String)
    (h : input.all lineFieldsOk = true) :
    main ["script.py", "input.txt", "-c"] input
      = ⟨0, ["Conversion complete. Output saved to output.csv"],
          some ("output.csv", OutputData.csv (convert_to_csv input))⟩ := by
  unfold main
  rw [if_neg (by decide), if_pos (by decide), if_pos h]

theorem main_run_j (input : List String)
    (h : input.all lineFieldsOk = true) :
    main ["script.py", "input.txt", "-j"] input
      = ⟨0, ["Conversion complete. Output saved to output.json"],
          some ("output.json", OutputData.json (convert_to_json input))⟩ := by
  unfold main
  rw [if_neg (by decide), if_neg (by decide), if_pos (by decide), if_pos h]

theorem main_run_j_bad (input : List String)
    (h : input.all lineFieldsOk = false) :
    main ["script.py", "input.txt", "-j"] input
      = ⟨1, [], Option.none⟩ := by
  unfold main
  rw [if_neg (by decide), if_neg (by decide), if_pos (by decide),
    if_neg (by simp [h])]

theorem main_run_x_ok (input : List String)
    (h : input.all lineFieldsOk = true)
    (hw : xmlWriteOk (convert_to_xml input) = true) :
    main ["script.py", "input.txt", "-x"] input
      = ⟨0, ["Conversion complete. Output saved to output.xml"],
          some ("output.xml", OutputData.xml (convert_to_xml input))⟩ := by
  unfold main
  rw [if_neg (by decide), if_neg (by decide), if_neg (by decide),
    if_pos (by decide), if_pos h, if_pos hw]

theorem main_run_x_bad (input : List String)
    (h : input.all lineFieldsOk = true)
    (hw : xmlWriteOk (convert_to_xml input) = false) :
    main ["script.py", "input.txt", "-x"] input
      = ⟨1, [], some ("output.xml", OutputData.xmlTruncated)⟩ := by
  unfold main
  rw [if_neg (by decide), if_neg (by decide), if_neg (by decide),
    if_pos (by decide), if_pos h, if_neg (by simp [hw])]

/-! Theorems for the claims. -/

/-- Claim C1, counterexample: for the tab-delimited input with header line
`name⟨tab⟩age` and the single data row `Alice` (one field fewer than the
header), the flag `-j` conversion produces a row object in which the
trailing header key `age` IS present, bound to Python `None` (JSON `null`) —
refuting the claim that the key is simply absent. -/
theorem short_row_key_absent_counterexample :
    convert_to_json ["name\tage", "Alice"]
      = [[(some "name", PyVal.str "Alice"), (some "age", PyVal.null)]] ∧
    pyLookup (dictOfRow (parseLine "name\tage") (parseLine "Alice"))
      (some "age") = some PyVal.null := by
  constructor <;> decide

/-- Claim C1, amended: for every tab-delimited input free of the CSV quote
character and within the csv field-size limit, converted with flag `-j`, a
data row with fewer tab-separated fields than the header produces a JSON
object in which the trailing header keys are PRESENT, each bound to the null
value (`DictReader` fills them with its default `restval = None`), not
absent; that object is written to `output.json`. -/
theorem short_row_keys_null_filled (header dataLine : String)
    (hph : plainLine header = true) (hpd : plainLine dataLine = true)
    (hne : parseLine dataLine ≠ [])
    (hlt : (parseLine dataLine).length < (parseLine header).length) :
    ∃ d, convert_to_json [header, dataLine] = [d] ∧
      main ["script.py", "input.txt", "-j"] [header, dataLine]
        = ⟨0, ["Conversion complete. Output saved to output.json"],
            some ("output.json", OutputData.json [d])⟩ ∧
      ∀ k ∈ (parseLine header).drop (parseLine dataLine).length,
        pyLookup d (some k) = some PyVal.null := by
  have hjson : convert_to_json [header, dataLine]
      = [dictOfRow (parseLine header) (parseLine dataLine)] := by
    simp [convert_to_json, dictReaderRows, hne]
  refine ⟨dictOfRow (parseLine header) (parseLine dataLine), hjson, ?_, ?_⟩
  · rw [main_run_j _ (two_fieldsOk header dataLine hph hpd), hjson]
  · intro k hk
    unfold dictOfRow
    rw [if_neg (by omega), if_pos hlt]
    exact pyLookup_dictFillNull_mem _ _ _ hk

/-- Witness for the amended claim C1 at the input
`["name⟨tab⟩age", "Alice"]`. -/
theorem short_row_keys_null_filled_witness :
    ∃ d, convert_to_json ["name\tage", "Alice"] = [d] ∧
      main ["script.py", "input.txt", "-j"] ["name\tage", "Alice"]
        = ⟨0, ["Conversion complete. Output saved to output.json"],
            some ("output.json", OutputData.json [d])⟩ ∧
      ∀ k ∈ (parseLine "name\tage").drop (parseLine "Alice").length,
        pyLookup d (some k) = some PyVal.null :=
  short_row_keys_null_filled "name\tage" "Alice"
    (by decide) (by decide) (by decide) (by decide)

/-- Claim C2, counterexample: for the input with header line `name` and the
single data row `Alice⟨tab⟩30` (one field more than the header), the row
mapping does NOT contain only the header keys: the extra value `30` is kept
under the `DictReader` rest key `None` — refuting the claim that extras are
dropped. -/
theorem extra_fields_dropped_counterexample :
    convert_to_json ["name", "Alice\t30"]
      = [[(some "name", PyVal.str "Alice"),
          (Option.none, PyVal.strlist ["30"])]] ∧
    pyHasKey (dictOfRow (parseLine "name") (parseLine "Alice\t30"))
      Option.none = true := by
  constructor <;> decide

/-- Claim C2, amended: for every tab-delimited input free of the CSV quote
character and within the csv field-size limit, a data row with more
tab-separated fields than the header produces a mapping that holds the
header keys PLUS the rest key `None`, under which the extra field values are
collected — they are not dropped.  Under `-j` that mapping is written to
`output.json`; under `-x` the rest-key element makes `tree.write` raise
`TypeError`, so the run exits with status 1 leaving a truncated
`output.xml` (the extras are never silently discarded). -/
theorem extra_fields_kept_under_restkey (header dataLine : String)
    (hph : plainLine header = true) (hpd : plainLine dataLine = true)
    (hne : parseLine dataLine ≠ [])
    (hgt : (parseLine header).length < (parseLine dataLine).length) :
    ∃ d, convert_to_json [header, dataLine] = [d] ∧
      pyLookup d Option.none
        = some (PyVal.strlist
            ((parseLine dataLine).drop (parseLine header).length)) ∧
      main ["script.py", "input.txt", "-j"] [header, dataLine]
        = ⟨0, ["Conversion complete. Output saved to output.json"],
            some ("output.json", OutputData.json [d])⟩ ∧
      convert_to_xml [header, dataLine]
        = XNode.elem (some "root") PyVal.null [itemOfDict d] ∧
      xmlWriteOk (convert_to_xml [header, dataLine]) = false ∧
      main ["script.py", "input.txt", "-x"] [header, dataLine]
        = ⟨1, [], some ("output.xml", OutputData.xmlTruncated)⟩ := by
  have hjson : convert_to_json [header, dataLine]
      = [dictOfRow (parseLine header) (parseLine dataLine)] := by
    simp [convert_to_json, dictReaderRows, hne]
  have hlook : pyLookup (dictOfRow (parseLine header) (parseLine dataLine))
      Option.none
      = some (PyVal.strlist
          ((parseLine dataLine).drop (parseLine header).length)) := by
    unfold dictOfRow
    rw [if_pos hgt]
    exact pyLookup_insert_self _ _ _
  have hxml : convert_to_xml [header, dataLine]
      = XNode.elem (some "root") PyVal.null
          [itemOfDict (dictOfRow (parseLine header) (parseLine dataLine))] := by
    unfold convert_to_xml
    rw [show dictReaderRows [header, dataLine]
      = [dictOfRow (parseLine header) (parseLine dataLine)] by
        simp [dictReaderRows, hne]]
    rfl
  have hextr : (parseLine dataLine).drop (parseLine header).length ≠ [] := by
    intro hnil
    have hlennil := congrArg List.length hnil
    simp [List.length_drop] at hlennil
    omega
  obtain ⟨e, es, hcons⟩ := List.exists_cons_of_ne_nil hextr
  have hmem : (Option.none, PyVal.strlist (e :: es))
      ∈ dictOfRow (parseLine header) (parseLine dataLine) := by
    apply pyLookup_mem
    rw [hlook, hcons]
  have hfail : xmlWriteOk (convert_to_xml [header, dataLine]) = false := by
    rw [hxml]
    have hchild : XNode.elem Option.none (PyVal.strlist (e :: es)) []
        ∈ (dictOfRow (parseLine header) (parseLine dataLine)).map
            (fun kv => XNode.elem kv.1 kv.2 []) :=
      List.mem_map.mpr ⟨_, hmem, rfl⟩
    have hitem : xmlWriteOk
        (itemOfDict (dictOfRow (parseLine header) (parseLine dataLine)))
          = false := by
      unfold itemOfDict
      simp only [xmlWriteOk]
      rw [xmlWriteOkList_false_of_mem _ _ hchild
        (by simp [xmlWriteOk, xmlWriteOkList, textWriteFails])]
      simp
    simp only [xmlWriteOk]
    rw [xmlWriteOkList_false_of_mem _ _ (List.mem_cons_self _ _) hitem]
    simp
  refine ⟨_, hjson, hlook, ?_, hxml, hfail, ?_⟩
  · rw [main_run_j _ (two_fieldsOk header dataLine hph hpd), hjson]
  · rw [main_run_x_bad _ (two_fieldsOk header dataLine hph hpd) hfail]

/-- Witness for the amended claim C2 at the input
`["name", "Alice⟨tab⟩30"]`. -/
theorem extra_fields_kept_under_restkey_witness :
    ∃ d, convert_to_json ["name", "Alice\t30"] = [d] ∧
      pyLookup d Option.none
        = some (PyVal.strlist
            ((parseLine "Alice\t30").drop (parseLine "name").length)) ∧
      main ["script.py", "input.txt", "-j"] ["name", "Alice\t30"]
        = ⟨0, ["Conversion complete. Output saved to output.json"],
            some ("output.json", OutputData.json [d])⟩ ∧
      convert_to_xml ["name", "Alice\t30"]
        = XNode.elem (some "root") PyVal.null [itemOfDict d] ∧
      xmlWriteOk (convert_to_xml ["name", "Alice\t30"]) = false ∧
      main ["script.py", "input.txt", "-x"] ["name", "Alice\t30"]
        = ⟨1, [], some ("output.xml", OutputData.xmlTruncated)⟩ :=
  extra_fields_kept_under_restkey "name" "Alice\t30"
    (by decide) (by decide) (by decide) (by decide)

/-- A file of `n` bytes `a`, with `n` beyond the csv field-size limit, makes
the reader raise `_csv.Error` under flag `-j`: exit status 1, nothing
printed, and no output file is ever opened. -/
theorem oversized_field_crashes (n : Nat) (hn : fieldSizeLimit < n) :
    runProgram ["script.py", "input.txt", "-j"] (List.replicate n 97)
      = some ⟨1, [], Option.none⟩ := by
  have hchars : ∀ c ∈ List.replicate n 'a', ¬(c = '\r' ∨ c = '\n') := by
    intro c hc
    rw [List.eq_of_mem_replicate hc]
    decide
  have hnotab : ∀ c ∈ (String.mk (List.replicate n 'a')).data, c ≠ '\t' := by
    intro c hc
    rw [List.eq_of_mem_replicate
      (show c ∈ List.replicate n 'a' from hc)]
    decide
  have hrep_ne : List.replicate n 'a' ≠ [] := by
    intro h
    have hl := congrArg List.length h
    simp at hl
    omega
  have hne : String.mk (List.replicate n 'a') ≠ "" := by
    intro hemp
    rw [String.ext_iff] at hemp
    have hdata : List.replicate n 'a' = [] := hemp
    exact hrep_ne hdata
  have hdec : decodeToLines (List.replicate n 97)
      = some [String.mk (List.replicate n 'a')] := by
    unfold decodeToLines
    rw [decodeLatin1_replicate n 97 (by norm_num)]
    rw [show Char.ofNat 97 = 'a' from rfl]
    rw [Option.map_some']
    rw [splitLines_no_newline _ hrep_ne hchars]
  have hlen : (String.mk (List.replicate n 'a')).length = n := by
    show (List.replicate n 'a').length = n
    simp
  have hbad : lineFieldsOk (String.mk (List.replicate n 'a')) = false := by
    unfold lineFieldsOk
    rw [parseLine_no_tab _ hne hnotab]
    simp only [List.all_cons, List.all_nil, Bool.and_true]
    rw [decide_eq_false_iff_not, hlen]
    unfold fieldSizeLimit at hn
    unfold fieldSizeLimit
    omega
  unfold runProgram
  rw [hdec, Option.map_some']
  rw [main_run_j_bad _ (by rw [List.all_cons, hbad]; rfl)]

/-- Claim C6, counterexample: the input file of 131073 `a` bytes (each a
valid byte value) makes the csv reader raise `_csv.Error` (`field larger
than field limit (131072)`) under flag `-j`, so the run exits with status 1
and NO output file is ever opened — the program does not always reach the
write stage. -/
theorem reach_write_stage_counterexample :
    ∃ res, runProgram ["script.py", "input.txt", "-j"]
        (List.replicate 131073 97) = some res ∧
      res.written = Option.none ∧ res.exitCode = 1 :=
  ⟨⟨1, [], Option.none⟩,
    oversized_field_crashes 131073 (by norm_num [fieldSizeLimit]), rfl, rfl⟩

/-- Claim C6, amended: decoding never fails — for every input file content,
i.e. every list of byte values (each below 256), the latin-1 decode
succeeds, every byte mapping to a character.  Provided the decoded lines
are free of the CSV quote character and every field is within the csv
field-size limit, each of the three flags' runs also reaches the write
stage (an output file is opened); without that limit the csv reader can
raise `_csv.Error` before any output file exists. -/
theorem lossy_decode_never_fails (bytes : List Nat) (input : List String)
    (hb : ∀ b ∈ bytes, b < 256)
    (hin : decodeToLines bytes = some input)
    (hplain : input.all plainLine = true) :
    ∃ cs, decodeLatin1 bytes = some cs ∧ cs.length = bytes.length ∧
      ∀ flag ∈ (["-c", "-j", "-x"] : List String),
        ∃ res, runProgram ["script.py", "input.txt", flag] bytes = some res ∧
          res.written.isSome = true := by
  obtain ⟨cs, hcs, hlen⟩ := decodeLatin1_total bytes hb
  have hok : input.all lineFieldsOk = true := all_plainLine_fieldsOk input hplain
  refine ⟨cs, hcs, hlen, ?_⟩
  intro flag hflag
  have hrun : runProgram ["script.py", "input.txt", flag] bytes
      = some (main ["script.py", "input.txt", flag] input) := by
    unfold runProgram
    rw [hin, Option.map_some']
  refine ⟨_, hrun, ?_⟩
  rcases (by simpa using hflag : flag = "-c" ∨ flag = "-j" ∨ flag = "-x")
    with rfl | rfl | rfl
  · rw [main_run_c _ hok]
    rfl
  · rw [main_run_j _ hok]
    rfl
  · by_cases hw : xmlWriteOk (convert_to_xml input) = true
    · rw [main_run_x_ok _ hok hw]
      rfl
    · rw [main_run_x_bad _ hok (by simpa using hw)]
      rfl

/-- Witness for the amended claim C6 at the two-byte input `[0, 255]`. -/
theorem lossy_decode_never_fails_witness :
    ∃ cs, decodeLatin1 [0, 255] = some cs ∧ cs.length = 2 ∧
      ∀ flag ∈ (["-c", "-j", "-x"] : List String),
        ∃ res, runProgram ["script.py", "input.txt", flag] [0, 255] = some res ∧
          res.written.isSome = true :=
  lossy_decode_never_fails [0, 255]
    [String.mk [Char.ofNat 0, Char.ofNat 255]]
    (by decide) (by decide) (by decide)

/-- Claim C8: every invocation whose positional argument count is not
exactly two (`sys.argv`, program name included, has length other than 3)
prints the usage message to standard output, exits with status 1, and
writes no output file. -/
theorem wrong_arg_count_usage (argv : List String) (input : List String)
    (h : argv.length ≠ 3) :
    main argv input = ⟨1, [usageMsg], Option.none⟩ := by
  unfold main
  rw [if_pos h]

/-- Witness for claim C8 at the one-argument invocation
`["script.py", "file.txt"]`. -/
theorem wrong_arg_count_usage_witness :
    main ["script.py", "file.txt"] [] = ⟨1, [usageMsg], Option.none⟩ :=
  wrong_arg_count_usage ["script.py", "file.txt"] [] (by decide)

/-- Claim C9: every invocation with exactly two positional arguments whose
flag is none of `-c`, `-j`, `-x` exits with status 1 and prints the error
message — which names all three valid flags — and writes no output file. -/
theorem invalid_flag_error (argv : List String) (input : List String)
    (h3 : argv.length = 3)
    (hflag : argv.getD 2 "" ∉ (["-c", "-j", "-x"] : List String)) :
    main argv input = ⟨1, [invalidFlagMsg], Option.none⟩ ∧
    "-c".data <:+: invalidFlagMsg.data ∧
    "-j".data <:+: invalidFlagMsg.data ∧
    "-x".data <:+: invalidFlagMsg.data := by
  have hc : argv.getD 2 "" ≠ "-c" := fun hc => hflag (by rw [hc]; decide)
  have hj : argv.getD 2 "" ≠ "-j" := fun hj => hflag (by rw [hj]; decide)
  have hx : argv.getD 2 "" ≠ "-x" := fun hx => hflag (by rw [hx]; decide)
  refine ⟨?_, by decide, by decide, by decide⟩
  unfold main
  rw [if_neg (by omega), if_neg hc, if_neg hj, if_neg hx]

/-- Witness for claim C9 at the Scenario 5 invocation with flag `-z`. -/
theorem invalid_flag_error_witness :
    main ["script.py", "file.txt", "-z"] []
      = ⟨1, [invalidFlagMsg], Option.none⟩ ∧
    "-c".data <:+: invalidFlagMsg.data ∧
    "-j".data <:+: invalidFlagMsg.data ∧
    "-x".data <:+: invalidFlagMsg.data :=
  invalid_flag_error ["script.py", "file.txt", "-z"] [] (by decide) (by decide)

/-- Claim C10: the whole run — decode of the input bytes, conversion, the
choice and content of the output file, and everything printed — is a pure
function of the input bytes and the argument vector, so two runs on the
same input with the same flag produce identical results (no timestamps,
random ordering, or other non-determinism appear anywhere in the model). -/
theorem deterministic_conversion (argv₁ argv₂ : List String)
    (bytes₁ bytes₂ : List Nat) (ha : argv₁ = argv₂) (hb : bytes₁ = bytes₂) :
    runProgram argv₁ bytes₁ = runProgram argv₂ bytes₂ := by
  rw [ha, hb]

/-- Witness for claim C10: two runs on the same concrete invocation. -/
theorem deterministic_conversion_witness :
    runProgram ["script.py", "input.txt", "-j"] [104, 105]
      = runProgram ["script.py", "input.txt", "-j"] [104, 105] :=
  deterministic_conversion _ _ _ _ rfl rfl

end Formater
